import Mathlib

/-!
Shallow embedding of `octopus_deploy_projects.py` (octopus-scripts).

The script polls the Octopus Deploy REST API and builds a consolidated
report of the latest (and, when failed, last-successful) deployment per
project/environment pair, across every project group.

Modelling conventions:
* parsed JSON responses become Lean structures;
* `None` results of `make_api_request` become `Option.none`;
* a Python exception that propagates is `Except.error ()` (the script
  raises on transport failure and on subscripting a `None` response);
* the unbounded `while` loop of the paginator takes explicit fuel; all
  theorems hypothesise enough fuel for the observed pages;
* the thread pool is modelled sequentially, in submission order
  (resolution of one pair is a pure function of the API responses, so
  only the completion order of the `env_data` dict can differ, which the
  spec itself declares non-deterministic);
* the `defaultdict(list)` grouping dict is only ever read via lookup, so
  it is modelled as a function from keys to lists;
* timestamps are already-parsed structures (the data model declares the
  creation timestamp well-formed); the `pytz` `America/Los_Angeles`
  conversion is modelled with the post-2007 United States DST rules
  (second Sunday of March 02:00 to first Sunday of November 02:00),
  which is what the IANA zone data gives for the dates of interest.
-/

set_option autoImplicit false

deriving instance DecidableEq for Except

/-- Days since 1970-01-01 of a proleptic Gregorian date (civil calendar). -/
def daysFromCivil (y m d : Int) : Int :=
  let y' := if m ≤ 2 then y - 1 else y
  let era := Int.ediv y' 400
  let yoe := y' - era * 400
  let mp := Int.emod (m + 9) 12
  let doy := Int.ediv (153 * mp + 2) 5 + d - 1
  let doe := yoe * 365 + Int.ediv yoe 4 - Int.ediv yoe 100 + doy
  era * 146097 + doe - 719468

/-- Inverse of `daysFromCivil`: (year, month, day) of an epoch day number. -/
def civilFromDays (z : Int) : Int × Int × Int :=
  let z' := z + 719468
  let era := Int.ediv z' 146097
  let doe := z' - era * 146097
  let yoe := Int.ediv (doe - Int.ediv doe 1460 + Int.ediv doe 36524 - Int.ediv doe 146096) 365
  let y := yoe + era * 400
  let doy := doe - (365 * yoe + Int.ediv yoe 4 - Int.ediv yoe 100)
  let mp := Int.ediv (5 * doy + 2) 153
  let d := doy - Int.ediv (153 * mp + 2) 5 + 1
  let m := mp + (if mp < 10 then 3 else -9)
  (y + (if m ≤ 2 then 1 else 0), m, d)

/-- Day of week of an epoch day number, 0 = Sunday. -/
def weekdayOf (days : Int) : Int :=
  Int.emod (days + 4) 7

/-- Day-of-month of the first Sunday on or after day `d` of month `m`. -/
def sundayOnOrAfter (y m d : Int) : Int :=
  d + Int.emod (7 - weekdayOf (daysFromCivil y m d)) 7

/-- Whether `America/Los_Angeles` daylight-saving time is active at UTC
epoch second `t` (post-2007 United States rules: DST runs from the
second Sunday of March 02:00 standard time, i.e. 10:00 UTC, to the first
Sunday of November 02:00 daylight time, i.e. 09:00 UTC). -/
def la_dst_active (t : Int) : Bool :=
  let y := (civilFromDays (Int.ediv (t - 28800) 86400)).1
  let dstStart := daysFromCivil y 3 (sundayOnOrAfter y 3 8) * 86400 + 36000
  let dstStop := daysFromCivil y 11 (sundayOnOrAfter y 11 1) * 86400 + 32400
  if dstStart ≤ t ∧ t < dstStop then true else false

/-- A parsed timestamp, as produced by
`datetime.strptime` with format `%Y-%m-%dT%H:%M:%S.%f%z`. -/
structure Timestamp where
  year : Nat
  month : Nat
  day : Nat
  hour : Nat
  minute : Nat
  second : Nat
  micro : Nat
  offsetMinutes : Int
deriving DecidableEq

/-- UTC epoch seconds of a parsed timestamp. -/
def utcEpochSeconds (ts : Timestamp) : Int :=
  daysFromCivil (Int.ofNat ts.year) (Int.ofNat ts.month) (Int.ofNat ts.day) * 86400
    + (Int.ofNat ts.hour) * 3600 + (Int.ofNat ts.minute) * 60 + Int.ofNat ts.second
    - ts.offsetMinutes * 60

/-- Zero-padded two-digit decimal rendering. -/
def padTwo (n : Nat) : String :=
  if n < 10 then "0" ++ toString n else toString n

/-- Zero-padded four-digit decimal rendering (`%Y`). -/
def padFour (n : Nat) : String :=
  if n < 10 then "000" ++ toString n
  else if n < 100 then "00" ++ toString n
  else if n < 1000 then "0" ++ toString n
  else toString n

/-- The `%Y-%m-%d %H:%M:%S` part of the output of `convert_to_pdt`:
the timestamp moved to `America/Los_Angeles` local time
(`utc_datetime.astimezone(pdt_zone)`), then formatted. -/
def la_local_datetime_string (ts : Timestamp) : String :=
  let t := utcEpochSeconds ts
  let offset : Int := if la_dst_active t then -25200 else -28800
  let lt := t + offset
  let days := Int.ediv lt 86400
  let secs := (Int.emod lt 86400).toNat
  let c := civilFromDays days
  padFour c.1.toNat ++ "-" ++ padTwo c.2.1.toNat ++ "-" ++ padTwo c.2.2.toNat ++ " " ++
    padTwo (secs / 3600) ++ ":" ++ padTwo (secs / 60 % 60) ++ ":" ++ padTwo (secs % 60)

/-- `convert_to_pdt` (octopus_deploy_projects.py lines 26-31): converts
the UTC timestamp to `America/Los_Angeles` time and renders it with
`strftime` with format `%Y-%m-%d %H:%M:%S PDT` — the trailing `PDT` is a literal of
the format string, not a computed zone designation. -/
def convert_to_pdt (utc_time : Timestamp) : String :=
  la_local_datetime_string utc_time ++ " PDT"

/-- Modelled from the spec: the daylight-saving-aware zone designation of
`America/Los_Angeles` on the given date (`PDT` during daylight-saving
time, `PST` otherwise). The source never computes this; the spec asks
for the rendering to carry the designation of the date. -/
def la_zone_designation (ts : Timestamp) : String :=
  if la_dst_active (utcEpochSeconds ts) then "PDT" else "PST"

/-- Modelled from the spec: the expected rendering of claim C9 — the
local time followed by the zone designation of that date. -/
def convert_to_pdt_spec (ts : Timestamp) : String :=
  la_local_datetime_string ts ++ " " ++ la_zone_designation ts

/-- Outcome of one `requests.get` call: either an HTTP response with a
status code and a parsed body, or a transport failure (in which case
`requests.get` raises). -/
inductive HttpOutcome (α : Type) where
  | response (status : Nat) (body : α)
  | netFail
deriving DecidableEq

/-- `make_api_request` (lines 41-50): returns the parsed body on status
200 and `None` on any other status; it contains no exception handler, so
a transport failure (`HttpOutcome.netFail`, where `requests.get` raises)
propagates to the caller, modelled as `Except.error ()`. -/
def make_api_request {α : Type} (transport : String → HttpOutcome α) (endpoint : String) :
    Except Unit (Option α) :=
  match transport endpoint with
  | .response status body => if status = 200 then .ok (some body) else .ok none
  | .netFail => .error ()

/-- One record of a `deployments?...` page: the fields the script reads. -/
structure DeploymentRecord where
  ReleaseId : String
  TaskId : String
  Created : Timestamp
deriving DecidableEq

/-- A `deployments?...` response body: the script reads its `Items` list. -/
structure Page where
  Items : List DeploymentRecord
deriving DecidableEq

/-- A `releases/{id}` response body: `Version` is subscripted (mandatory),
`ReleaseNotes` is read with `.get` (optional). -/
structure Release where
  Version : String
  ReleaseNotes : Option String
deriving DecidableEq

/-- A `tasks/{id}` response body: `State` is read with
`.get` with default `Unknown`, so it may be missing. -/
structure TaskT where
  State : Option String
deriving DecidableEq

/-- One element of the `projects/all` response: the fields the script reads. -/
structure ProjectT where
  Id : String
  Name : String
  ProjectGroupId : String
deriving DecidableEq

/-- One element of the `projectgroups/all` response. -/
structure GroupT where
  Id : String
  Name : String
deriving DecidableEq

/-- One element of the `environments/all` response. -/
structure EnvT where
  Id : String
  Name : String
deriving DecidableEq

/-- A `projects/{id}` response body:
the nested optional `PersistenceSettings` / `Url` lookup collapses
to one optional URL. -/
structure ProjectDetails where
  url : Option String
deriving DecidableEq

/-- The per-pair output dict built by `process_deployment`. The `failed`
key is present in the Python dict exactly when the Bool is `true`; the
optional fields are present exactly when `some`. The `name` key is set
later by the collector (line 188). -/
structure EnvOutput where
  version : String
  release_notes : Option String
  deployment_date : String
  failed : Bool
  last_successful_version : Option String
  last_successful_date : Option String
  name : Option String
deriving DecidableEq

/-- The `project_data` dict of the aggregator. -/
structure ProjectData where
  id : String
  name : String
  git_url : Option String
  environments : List EnvOutput
deriving DecidableEq

/-- The `group_data` dict of the aggregator. -/
structure GroupData where
  id : String
  name : String
  projects : List ProjectData
deriving DecidableEq

/-- The remote API, endpoint namespace split by response type. Each field
has the return type of `make_api_request`: `.ok (some body)` for a 200
response, `.ok none` for any other status, `.error ()` when the
transport raises. -/
structure Api where
  projectsAll : Except Unit (Option (List ProjectT))
  projectGroupsAll : Except Unit (Option (List GroupT))
  environmentsAll : Except Unit (Option (List EnvT))
  projectDetails : String → Except Unit (Option ProjectDetails)
  deploymentsPage : String → String → Nat → Nat → Except Unit (Option Page)
  release : String → Except Unit (Option Release)
  task : String → Except Unit (Option TaskT)

/-- `fetch_all_projects` (lines 52-56): `projects or []`. -/
def fetch_all_projects (api : Api) : Except Unit (List ProjectT) :=
  match api.projectsAll with
  | .error e => .error e
  | .ok r => .ok (r.getD [])

/-- `fetch_all_project_groups` (lines 62-66): `groups or []`. -/
def fetch_all_project_groups (api : Api) : Except Unit (List GroupT) :=
  match api.projectGroupsAll with
  | .error e => .error e
  | .ok r => .ok (r.getD [])

/-- `fetch_all_environments` (lines 68-72): `environments or []`. -/
def fetch_all_environments (api : Api) : Except Unit (List EnvT) :=
  match api.environmentsAll with
  | .error e => .error e
  | .ok r => .ok (r.getD [])

/-- `fetch_project_details` (lines 58-60). -/
def fetch_project_details (api : Api) (project_id : String) :
    Except Unit (Option ProjectDetails) :=
  api.projectDetails project_id

/-- The `while True` loop of `fetch_deployments_with_pagination`
(lines 80-92), with explicit fuel and an added counter of page requests
(the second component) used only to state the pagination properties.
A `break` happens when the response is `None` or its `Items` list is
empty (nothing accumulated from that page), or after accumulating a page
shorter than `take`; otherwise `skip += take` and the loop continues. -/
def fetchDeploymentsAux (api : Api) (project_id environment_id : String) (take : Nat) :
    Nat → Nat → Except Unit (List DeploymentRecord × Nat)
  | _, 0 => .ok ([], 0)
  | skip, fuel + 1 =>
    match api.deploymentsPage project_id environment_id skip take with
    | .error e => .error e
    | .ok none => .ok ([], 1)
    | .ok (some page) =>
      if page.Items = [] then .ok ([], 1)
      else if page.Items.length < take then .ok (page.Items, 1)
      else
        match fetchDeploymentsAux api project_id environment_id take (skip + take) fuel with
        | .error e => .error e
        | .ok (rest, calls) => .ok (page.Items ++ rest, calls + 1)

/-- `fetch_deployments_with_pagination` (lines 74-95): page size 30,
starting at skip 0; returns the accumulated records. -/
def fetch_deployments_with_pagination (api : Api) (fuel : Nat)
    (project_id environment_id : String) : Except Unit (List DeploymentRecord) :=
  match fetchDeploymentsAux api project_id environment_id 30 0 fuel with
  | .error e => .error e
  | .ok (items, _) => .ok items

/-- The `for deployment in deployments[1:]` scan (lines 126-133). A task
fetch that raises propagates; a task that is `None` or whose state is
not `Success` is skipped; at the first `Success` the release is fetched
and subscripted — if that release is `None`, subscripting `success_release` with `Version`
raises a `TypeError` (modelled `.error ()`). Returns the
(version, converted date) pair of the match, if any. -/
def scan_last_success (api : Api) : List DeploymentRecord → Except Unit (Option (String × String))
  | [] => .ok none
  | d :: rest =>
    match api.task d.TaskId with
    | .error e => .error e
    | .ok none => scan_last_success api rest
    | .ok (some t) =>
      if t.State.getD "Unknown" = "Success" then
        match api.release d.ReleaseId with
        | .error e => .error e
        | .ok none => .error ()
        | .ok (some success_release) =>
          .ok (some (success_release.Version, convert_to_pdt d.Created))
      else scan_last_success api rest

/-- The body of the `try` block of `process_deployment` (lines 99-136),
before the `except` handler is applied. -/
def process_deployment_exc (api : Api) (fuel : Nat) (project_id environment_id : String) :
    Except Unit (Option (String × EnvOutput)) :=
  match fetch_deployments_with_pagination api fuel project_id environment_id with
  | .error e => .error e
  | .ok [] => .ok none
  | .ok (latest_deployment :: rest) =>
    match api.release latest_deployment.ReleaseId with
    | .error e => .error e
    | .ok release =>
      match api.task latest_deployment.TaskId with
      | .error e => .error e
      | .ok task =>
        match release, task with
        | some release, some task =>
          if task.State.getD "Unknown" = "Failed" then
            match scan_last_success api rest with
            | .error e => .error e
            | .ok ls =>
              .ok (some (environment_id,
                { version := release.Version
                  release_notes := release.ReleaseNotes
                  deployment_date := convert_to_pdt latest_deployment.Created
                  failed := true
                  last_successful_version := ls.map (fun p => p.1)
                  last_successful_date := ls.map (fun p => p.2)
                  name := none }))
          else
            .ok (some (environment_id,
              { version := release.Version
                release_notes := release.ReleaseNotes
                deployment_date := convert_to_pdt latest_deployment.Created
                failed := false
                last_successful_version := none
                last_successful_date := none
                name := none }))
        | _, _ => .ok none

/-- `process_deployment` (lines 97-139): the `except Exception` handler
at the pair boundary turns any raised exception into `None`. -/
def process_deployment (api : Api) (fuel : Nat) (project_id environment_id : String) :
    Option (String × EnvOutput) :=
  match process_deployment_exc api fuel project_id environment_id with
  | .error _ => none
  | .ok r => r

/-- Python dict assignment `env_data[env_id] = data`: overwrite in place
if the key exists, else append (insertion order preserved). -/
def insertDict (m : List (String × EnvOutput)) (k : String) (v : EnvOutput) :
    List (String × EnvOutput) :=
  if (m.find? (fun kv => kv.1 == k)).isSome then
    m.map (fun kv => if kv.1 == k then (k, v) else kv)
  else m ++ [(k, v)]

/-- The fan-in loop over completed futures (lines 179-192), modelled in
submission order: each non-`None` result `(env_id, data)` gets
`name` set to the display name of the environment and is inserted into the `env_data` dict. -/
def collect_env_data_aux (api : Api) (fuel : Nat) (project_id : String)
    (acc : List (String × EnvOutput)) : List EnvT → List (String × EnvOutput)
  | [] => acc
  | env :: rest =>
    match process_deployment api fuel project_id env.Id with
    | some (env_id, data) =>
      collect_env_data_aux api fuel project_id
        (insertDict acc env_id { data with name := some env.Name }) rest
    | none => collect_env_data_aux api fuel project_id acc rest

/-- The `env_data` dict of one project after all its futures completed. -/
def collect_env_data (api : Api) (fuel : Nat) (project_id : String)
    (environments : List EnvT) : List (String × EnvOutput) :=
  collect_env_data_aux api fuel project_id [] environments

/-- The `projects_by_group` defaultdict (lines 148-150). It is only ever
read via lookup (line 157), so it is modelled as its lookup function;
a missing key yields `[]` (defaultdict semantics), and appends preserve
the insertion order of the `projects` list. -/
def group_projects_by (projects : List ProjectT) : String → List ProjectT :=
  projects.foldl
    (fun m project k => if project.ProjectGroupId == k then m k ++ [project] else m k)
    (fun _ => [])

/-- The per-project body of the aggregator loop (lines 165-195): fetch
the project detail once, resolve every environment, keep the dict values. -/
def build_project_data (api : Api) (fuel : Nat) (environments : List EnvT)
    (project : ProjectT) : Except Unit ProjectData :=
  match fetch_project_details api project.Id with
  | .error e => .error e
  | .ok project_details =>
    let git_url := match project_details with
      | some d => d.url
      | none => none
    .ok { id := project.Id
          name := project.Name
          git_url := git_url
          environments := (collect_env_data api fuel project.Id environments).map
            (fun kv => kv.2) }

/-- The `for project in group_projects` loop (lines 165-197), appending
each `project_data` in order; an exception raised outside the per-pair
handler (the `fetch_project_details` call) aborts the run. -/
def build_group_projects (api : Api) (fuel : Nat) (environments : List EnvT) :
    List ProjectT → Except Unit (List ProjectData)
  | [] => .ok []
  | project :: rest =>
    match build_project_data api fuel environments project with
    | .error e => .error e
    | .ok pd =>
      match build_group_projects api fuel environments rest with
      | .error e => .error e
      | .ok pds => .ok (pd :: pds)

/-- The `for group in project_groups` loop (lines 155-200). -/
def build_groups (api : Api) (fuel : Nat) (projects_by_group : String → List ProjectT)
    (environments : List EnvT) : List GroupT → Except Unit (List GroupData)
  | [] => .ok []
  | group :: rest =>
    match build_group_projects api fuel environments (projects_by_group group.Id) with
    | .error e => .error e
    | .ok pds =>
      match build_groups api fuel projects_by_group environments rest with
      | .error e => .error e
      | .ok gds => .ok ({ id := group.Id, name := group.Name, projects := pds } :: gds)

/-- `fetch_all_deployment_data` (lines 141-203). -/
def fetch_all_deployment_data (api : Api) (fuel : Nat) : Except Unit (List GroupData) :=
  match fetch_all_projects api with
  | .error e => .error e
  | .ok projects =>
    match fetch_all_project_groups api with
    | .error e => .error e
    | .ok project_groups =>
      match fetch_all_environments api with
      | .error e => .error e
      | .ok environments =>
        build_groups api fuel (group_projects_by projects) environments project_groups

/-- `build_project_data` with the exception case projected away: used to
state what the aggregator produces when every `projects/{id}` fetch
completes without raising. -/
def build_pure (api : Api) (fuel : Nat) (environments : List EnvT)
    (project : ProjectT) : ProjectData :=
  { id := project.Id
    name := project.Name
    git_url := match api.projectDetails project.Id with
      | .ok (some d) => d.url
      | _ => none
    environments := (collect_env_data api fuel project.Id environments).map
      (fun kv => kv.2) }

/-- The records of pages `0 .. k-1` of a page sequence `f`, concatenated
in fetch order. -/
def pagesJoin (f : Nat → List DeploymentRecord) : Nat → List DeploymentRecord
  | 0 => []
  | k + 1 => f 0 ++ pagesJoin (fun j => f (j + 1)) k

/-- The task of record `d` resolves (without raising) to something other
than a `Success` state: either the fetch is Absent or the fetched state
(defaulting to `Unknown`) differs from `Success`. -/
def taskNotSuccess (api : Api) (d : DeploymentRecord) : Prop :=
  api.task d.TaskId = .ok none ∨
    ∃ t, api.task d.TaskId = .ok (some t) ∧ t.State.getD "Unknown" ≠ "Success"

/-- Every release and task fetch of the API succeeds with a body. -/
def releases_tasks_ok (api : Api) : Prop :=
  (∀ rid, ∃ r, api.release rid = .ok (some r)) ∧
    (∀ tid, ∃ t, api.task tid = .ok (some t))

/-! Concrete fixtures used to evaluate the theorems on explicit inputs. -/

/-- The UTC timestamp `2024-01-01T00:00:00.000000+00:00` of the spec. -/
def ts2024 : Timestamp := ⟨2024, 1, 1, 0, 0, 0, 0, 0⟩

/-- A baseline API where every endpoint answers with an empty success. -/
def apiEmpty : Api where
  projectsAll := .ok (some [])
  projectGroupsAll := .ok (some [])
  environmentsAll := .ok (some [])
  projectDetails := fun _ => .ok none
  deploymentsPage := fun _ _ _ _ => .ok none
  release := fun _ => .ok none
  task := fun _ => .ok none

def rec0 : DeploymentRecord := ⟨"R0", "T0", ts2024⟩

def recA : DeploymentRecord := ⟨"RA", "TA", ts2024⟩

def recB : DeploymentRecord := ⟨"RB", "TB", ts2024⟩

def recF : DeploymentRecord := ⟨"RF", "TF", ts2024⟩

def recS : DeploymentRecord := ⟨"RS", "TS", ts2024⟩

def relA : Release := ⟨"1.0", none⟩

def relB : Release := ⟨"2.0", none⟩

/-- Deployment pages of sizes 30, 30, 17 at skips 0, 30, 60. -/
def apiPagesA : Api :=
  { apiEmpty with
    deploymentsPage := fun _ _ skip _ =>
      if skip = 0 then .ok (some ⟨List.replicate 30 rec0⟩)
      else if skip = 30 then .ok (some ⟨List.replicate 30 rec0⟩)
      else .ok (some ⟨List.replicate 17 rec0⟩) }

/-- Deployment pages of sizes 30, 30, 30, 0 at skips 0, 30, 60, 90. -/
def apiPagesB : Api :=
  { apiEmpty with
    deploymentsPage := fun _ _ skip _ =>
      if skip < 90 then .ok (some ⟨List.replicate 30 rec0⟩)
      else .ok (some ⟨[]⟩) }

/-- One single-record history for every pair; every release and task
fetch succeeds with a `Success` task. -/
def apiOne : Api :=
  { apiEmpty with
    deploymentsPage := fun _ _ _ _ => .ok (some ⟨[recA]⟩)
    release := fun _ => .ok (some relA)
    task := fun _ => .ok (some ⟨some "Success"⟩) }

/-- A failed latest deployment followed by a successful older one. -/
def apiScan : Api :=
  { apiEmpty with
    deploymentsPage := fun _ _ _ _ => .ok (some ⟨[recF, recS]⟩)
    release := fun rid =>
      if rid = "RF" then .ok (some relA)
      else if rid = "RS" then .ok (some relB)
      else .ok none
    task := fun tid =>
      if tid = "TF" then .ok (some ⟨some "Failed"⟩)
      else if tid = "TS" then .ok (some ⟨some "Success"⟩)
      else .ok none }

/-- Like `apiScan`, but the release of the successful older deployment
is Absent, so subscripting `success_release` with `Version` raises. -/
def apiScanBad : Api :=
  { apiScan with
    release := fun rid => if rid = "RF" then .ok (some relA) else .ok none }

/-- A single failed deployment with no older history. -/
def apiFail : Api :=
  { apiEmpty with
    deploymentsPage := fun _ _ _ _ => .ok (some ⟨[recF]⟩)
    release := fun _ => .ok (some relA)
    task := fun _ => .ok (some ⟨some "Failed"⟩) }

/-- A non-empty history whose latest release fetch is Absent. -/
def apiAbsent : Api :=
  { apiEmpty with
    deploymentsPage := fun _ _ _ _ => .ok (some ⟨[recA]⟩)
    release := fun _ => .ok none
    task := fun _ => .ok (some ⟨some "Success"⟩) }

/-- A single deployment whose task carries no `State` field. -/
def apiNoState : Api :=
  { apiEmpty with
    deploymentsPage := fun _ _ _ _ => .ok (some ⟨[recA]⟩)
    release := fun _ => .ok (some relA)
    task := fun _ => .ok (some ⟨none⟩) }

def groupW : GroupT := ⟨"G1", "Group One"⟩

def projW : ProjectT := ⟨"P1", "Project One", "G1"⟩

def envW1 : EnvT := ⟨"E1", "Dev"⟩

def envW2 : EnvT := ⟨"E2", "Prod"⟩

/-- The shared `projects/{id}` endpoint of the aggregator fixtures. -/
def detW : String → Except Unit (Option ProjectDetails) := fun _ => .ok none

/-- A full aggregator fixture: one group, one project, two environments,
each with a one-record history. -/
def apiW : Api where
  projectsAll := .ok (some [projW])
  projectGroupsAll := .ok (some [groupW])
  environmentsAll := .ok (some [envW1, envW2])
  projectDetails := detW
  deploymentsPage := fun p e _ _ =>
    if p = "P1" ∧ e = "E1" then .ok (some ⟨[recA]⟩)
    else if p = "P1" ∧ e = "E2" then .ok (some ⟨[recB]⟩)
    else .ok none
  release := fun rid =>
    if rid = "RA" then .ok (some relA)
    else if rid = "RB" then .ok (some relB)
    else .ok none
  task := fun _ => .ok (some ⟨some "Success"⟩)

/-- `apiW` with a transport failure injected into the deployment listing
of the pair (`P1`, `E1`). -/
def apiWfail : Api :=
  { apiW with
    deploymentsPage := fun p e skip take =>
      if p = "P1" ∧ e = "E1" then .error ()
      else apiW.deploymentsPage p e skip take }

/-- The report entry produced for a single failed deployment with no
older history (fixture `apiFail`). -/
def outFailedW : EnvOutput :=
  { version := "1.0"
    release_notes := none
    deployment_date := convert_to_pdt ts2024
    failed := true
    last_successful_version := none
    last_successful_date := none
    name := none }

/-- The report entry produced for a single non-failed deployment
(fixtures `apiOne` and `apiNoState`). -/
def outOkW : EnvOutput :=
  { version := "1.0"
    release_notes := none
    deployment_date := convert_to_pdt ts2024
    failed := false
    last_successful_version := none
    last_successful_date := none
    name := none }

/-- A transport that always answers with HTTP status 404. -/
def transport404 : String → HttpOutcome Page := fun _ => .response 404 ⟨[]⟩

/-- A transport that always fails below HTTP. -/
def transportFail : String → HttpOutcome Page := fun _ => .netFail


/-! Helper lemmas about the last-success scan and the resolver. -/

theorem scan_skip (api : Api) (d : DeploymentRecord) (rest : List DeploymentRecord)
    (h : taskNotSuccess api d) :
    scan_last_success api (d :: rest) = scan_last_success api rest := by
  rcases h with h | ⟨t, ht, hs⟩
  · simp [scan_last_success, h]
  · simp [scan_last_success, ht, hs]

theorem scan_found (api : Api) (d : DeploymentRecord) (rest : List DeploymentRecord)
    (t : TaskT) (r : Release)
    (ht : api.task d.TaskId = .ok (some t)) (hs : t.State.getD "Unknown" = "Success")
    (hr : api.release d.ReleaseId = .ok (some r)) :
    scan_last_success api (d :: rest) = .ok (some (r.Version, convert_to_pdt d.Created)) := by
  simp [scan_last_success, ht, hs, hr]

theorem scan_none (api : Api) (l : List DeploymentRecord)
    (h : ∀ d ∈ l, taskNotSuccess api d) :
    scan_last_success api l = .ok none := by
  induction l with
  | nil => rfl
  | cons d rest ih =>
    rw [scan_skip api d rest (h d (List.mem_cons_self d rest))]
    exact ih (fun d' hd' => h d' (List.mem_cons_of_mem d hd'))

theorem scan_total (api : Api) (hok : releases_tasks_ok api) (l : List DeploymentRecord) :
    ∃ v, scan_last_success api l = .ok v := by
  induction l with
  | nil => exact ⟨none, rfl⟩
  | cons d rest ih =>
    obtain ⟨t, ht⟩ := hok.2 d.TaskId
    by_cases hs : t.State.getD "Unknown" = "Success"
    · obtain ⟨r, hr⟩ := hok.1 d.ReleaseId
      exact ⟨some (r.Version, convert_to_pdt d.Created), scan_found api d rest t r ht hs hr⟩
    · rw [scan_skip api d rest (Or.inr ⟨t, ht, hs⟩)]
      exact ih

theorem process_forward_failed (api : Api) (fuel : Nat) (p e : String)
    (latest : DeploymentRecord) (rest : List DeploymentRecord) (r : Release) (t : TaskT)
    (ls : Option (String × String))
    (hfetch : fetch_deployments_with_pagination api fuel p e = .ok (latest :: rest))
    (hrel : api.release latest.ReleaseId = .ok (some r))
    (htask : api.task latest.TaskId = .ok (some t))
    (hst : t.State.getD "Unknown" = "Failed")
    (hscan : scan_last_success api rest = .ok ls) :
    process_deployment api fuel p e = some (e,
      { version := r.Version
        release_notes := r.ReleaseNotes
        deployment_date := convert_to_pdt latest.Created
        failed := true
        last_successful_version := ls.map (fun q => q.1)
        last_successful_date := ls.map (fun q => q.2)
        name := none }) := by
  simp [process_deployment, process_deployment_exc, hfetch, hrel, htask, hst, hscan]

theorem process_forward_not_failed (api : Api) (fuel : Nat) (p e : String)
    (latest : DeploymentRecord) (rest : List DeploymentRecord) (r : Release) (t : TaskT)
    (hfetch : fetch_deployments_with_pagination api fuel p e = .ok (latest :: rest))
    (hrel : api.release latest.ReleaseId = .ok (some r))
    (htask : api.task latest.TaskId = .ok (some t))
    (hst : ¬ t.State.getD "Unknown" = "Failed") :
    process_deployment api fuel p e = some (e,
      { version := r.Version
        release_notes := r.ReleaseNotes
        deployment_date := convert_to_pdt latest.Created
        failed := false
        last_successful_version := none
        last_successful_date := none
        name := none }) := by
  simp [process_deployment, process_deployment_exc, hfetch, hrel, htask, hst]

theorem process_some_inv (api : Api) (fuel : Nat) (p e k : String) (out : EnvOutput)
    (h : process_deployment api fuel p e = some (k, out)) :
    k = e ∧ ∃ latest rest r t,
      fetch_deployments_with_pagination api fuel p e = .ok (latest :: rest) ∧
      api.release latest.ReleaseId = .ok (some r) ∧
      api.task latest.TaskId = .ok (some t) ∧
      out.version = r.Version ∧
      (out.failed = true ↔ t.State.getD "Unknown" = "Failed") := by
  unfold process_deployment at h
  split at h
  · exact absurd h (by simp)
  rename_i r0 heq
  subst h
  unfold process_deployment_exc at heq
  split at heq
  · exact absurd heq (by simp)
  · exact absurd heq (by simp)
  rename_i latest rest hfetch
  split at heq
  · exact absurd heq (by simp)
  rename_i release hrel
  split at heq
  · exact absurd heq (by simp)
  rename_i task htask
  split at heq
  case _ r t =>
    split at heq
    case isTrue hst =>
      split at heq
      · exact absurd heq (by simp)
      rename_i ls hscan
      simp only [Except.ok.injEq, Option.some.injEq, Prod.mk.injEq] at heq
      refine ⟨heq.1.symm, latest, rest, r, t, hfetch, hrel, htask, ?_, ?_⟩
      · rw [← heq.2]
      · rw [← heq.2]
        simpa using hst
    case isFalse hst =>
      simp only [Except.ok.injEq, Option.some.injEq, Prod.mk.injEq] at heq
      refine ⟨heq.1.symm, latest, rest, r, t, hfetch, hrel, htask, ?_, ?_⟩
      · rw [← heq.2]
      · rw [← heq.2]
        simpa using hst
  case _ x y hxy =>
    exact absurd heq (by simp)

theorem scan_drop_front (api : Api) (pre l : List DeploymentRecord)
    (h : ∀ d ∈ pre, taskNotSuccess api d) :
    scan_last_success api (pre ++ l) = scan_last_success api l := by
  induction pre with
  | nil => rfl
  | cons d rest ih =>
    rw [List.cons_append, scan_skip api d (rest ++ l) (h d (List.mem_cons_self d rest))]
    exact ih (fun d' hd' => h d' (List.mem_cons_of_mem d hd'))

theorem process_absent (api : Api) (fuel : Nat) (p e : String)
    (latest : DeploymentRecord) (rest : List DeploymentRecord)
    (hfetch : fetch_deployments_with_pagination api fuel p e = .ok (latest :: rest))
    (h : api.release latest.ReleaseId = .ok none ∨ api.task latest.TaskId = .ok none) :
    process_deployment api fuel p e = none := by
  rcases h with hrel | htask
  · cases htask : api.task latest.TaskId with
    | error e1 => simp [process_deployment, process_deployment_exc, hfetch, hrel, htask]
    | ok t => simp [process_deployment, process_deployment_exc, hfetch, hrel, htask]
  · cases hrel : api.release latest.ReleaseId with
    | error e1 => simp [process_deployment, process_deployment_exc, hfetch, hrel, htask]
    | ok r =>
      cases r with
      | none => simp [process_deployment, process_deployment_exc, hfetch, hrel, htask]
      | some rr => simp [process_deployment, process_deployment_exc, hfetch, hrel, htask]

/-! Claim theorems. -/

/-- Claim C1: the Deployment Resolver yields a report for a
(project, environment) pair exactly when the Paginator yields a
non-empty deployment list: a report implies a non-empty paginated
history; an empty history yields no report; a non-empty history yields a
report whenever every release and task fetch succeeds. -/
theorem resolver_presence_iff_nonempty :
    (∀ (api : Api) (fuel : Nat) (p e : String) (r : String × EnvOutput),
        process_deployment api fuel p e = some r →
        ∃ latest rest,
          fetch_deployments_with_pagination api fuel p e = .ok (latest :: rest)) ∧
    (∀ (api : Api) (fuel : Nat) (p e : String),
        fetch_deployments_with_pagination api fuel p e = .ok [] →
        process_deployment api fuel p e = none) ∧
    (∀ (api : Api) (fuel : Nat) (p e : String) (latest : DeploymentRecord)
        (rest : List DeploymentRecord),
        fetch_deployments_with_pagination api fuel p e = .ok (latest :: rest) →
        releases_tasks_ok api →
        ∃ out, process_deployment api fuel p e = some (e, out)) := by
  refine ⟨?_, ?_, ?_⟩
  · rintro api fuel p e ⟨k, out⟩ h
    obtain ⟨-, latest, rest, r, t, hfetch, -⟩ := process_some_inv api fuel p e k out h
    exact ⟨latest, rest, hfetch⟩
  · intro api fuel p e hfetch
    simp [process_deployment, process_deployment_exc, hfetch]
  · intro api fuel p e latest rest hfetch hok
    obtain ⟨r, hrel⟩ := hok.1 latest.ReleaseId
    obtain ⟨t, htask⟩ := hok.2 latest.TaskId
    by_cases hst : t.State.getD "Unknown" = "Failed"
    · obtain ⟨ls, hscan⟩ := scan_total api hok rest
      exact ⟨_, process_forward_failed api fuel p e latest rest r t ls hfetch hrel htask hst hscan⟩
    · exact ⟨_, process_forward_not_failed api fuel p e latest rest r t hfetch hrel htask hst⟩

theorem resolver_presence_iff_nonempty_witness :
    ∃ out, process_deployment apiOne 5 "P" "E" = some ("E", out) :=
  resolver_presence_iff_nonempty.2.2 apiOne 5 "P" "E" recA [] (by decide)
    ⟨fun _ => ⟨relA, rfl⟩, fun _ => ⟨⟨some "Success"⟩, rfl⟩⟩

theorem process_failed_flag (api : Api) (fuel : Nat) (p e k : String) (out : EnvOutput)
    (latest : DeploymentRecord) (rest : List DeploymentRecord)
    (hsome : process_deployment api fuel p e = some (k, out))
    (hfetch : fetch_deployments_with_pagination api fuel p e = .ok (latest :: rest)) :
    ∃ t, api.task latest.TaskId = .ok (some t) ∧
      (out.failed = true ↔ t.State.getD "Unknown" = "Failed") := by
  obtain ⟨-, latest', rest', r, t, hfetch', hrel', htask', -, hiff⟩ :=
    process_some_inv api fuel p e k out hsome
  rw [hfetch] at hfetch'
  obtain ⟨h1, -⟩ := List.cons.injEq .. ▸ (Except.ok.injEq .. ▸ hfetch' :)
  exact ⟨t, h1 ▸ htask', hiff⟩

/-- Claim C3: for every emitted report, the `failed` flag is `true` if and
only if the task state of the latest (first) deployment record equals
`Failed` (a missing state defaults to `Unknown`). -/
theorem resolver_failed_iff (api : Api) (fuel : Nat) (p e k : String) (out : EnvOutput)
    (latest : DeploymentRecord) (rest : List DeploymentRecord)
    (hsome : process_deployment api fuel p e = some (k, out))
    (hfetch : fetch_deployments_with_pagination api fuel p e = .ok (latest :: rest)) :
    ∃ t, api.task latest.TaskId = .ok (some t) ∧
      (out.failed = true ↔ t.State.getD "Unknown" = "Failed") :=
  process_failed_flag api fuel p e k out latest rest hsome hfetch

theorem resolver_failed_iff_witness :
    ∃ t, apiFail.task recF.TaskId = .ok (some t) ∧
      (outFailedW.failed = true ↔ t.State.getD "Unknown" = "Failed") :=
  resolver_failed_iff apiFail 5 "P" "E" "E" outFailedW recF [] (by decide) (by decide)

/-- Claim C6: for a pair with non-empty history, if the release fetch or the task
fetch of the latest record comes back Absent, the resolver returns no
report for the pair. -/
theorem resolver_absent_on_latest_fetch (api : Api) (fuel : Nat) (p e : String)
    (latest : DeploymentRecord) (rest : List DeploymentRecord)
    (hfetch : fetch_deployments_with_pagination api fuel p e = .ok (latest :: rest))
    (h : api.release latest.ReleaseId = .ok none ∨ api.task latest.TaskId = .ok none) :
    process_deployment api fuel p e = none :=
  process_absent api fuel p e latest rest hfetch h

theorem resolver_absent_on_latest_fetch_witness :
    process_deployment apiAbsent 5 "P" "E" = none :=
  resolver_absent_on_latest_fetch apiAbsent 5 "P" "E" recA [] (by decide) (Or.inl rfl)

/-- Claim C10: a task response without a `State` field is treated as
state `Unknown`: a latest deployment with such a task is never marked
failed, and the last-success scan skips (never selects) a record whose
task fetch is Absent or lacks a `State` field. -/
theorem unknown_state_handling :
    (∀ (api : Api) (fuel : Nat) (p e k : String) (out : EnvOutput)
        (latest : DeploymentRecord) (rest : List DeploymentRecord) (t : TaskT),
        process_deployment api fuel p e = some (k, out) →
        fetch_deployments_with_pagination api fuel p e = .ok (latest :: rest) →
        api.task latest.TaskId = .ok (some t) → t.State = none →
        out.failed = false) ∧
    (∀ (api : Api) (d : DeploymentRecord) (rest : List DeploymentRecord),
        (api.task d.TaskId = .ok none ∨
          ∃ t, api.task d.TaskId = .ok (some t) ∧ t.State = none) →
        scan_last_success api (d :: rest) = scan_last_success api rest) := by
  constructor
  · intro api fuel p e k out latest rest t hsome hfetch htask hstate
    obtain ⟨t', htask', hiff⟩ := process_failed_flag api fuel p e k out latest rest hsome hfetch
    rw [htask] at htask'
    obtain rfl : t = t' := by simpa using htask'
    cases hb : out.failed with
    | false => rfl
    | true =>
      have : t.State.getD "Unknown" = "Failed" := hiff.mp hb
      rw [hstate] at this
      simp at this
  · intro api d rest h
    refine scan_skip api d rest ?_
    rcases h with h | ⟨t, ht, hstate⟩
    · exact Or.inl h
    · refine Or.inr ⟨t, ht, ?_⟩
      rw [hstate]
      simp

theorem unknown_state_handling_witness : outOkW.failed = false :=
  unknown_state_handling.1 apiNoState 5 "P" "E" "E" outOkW recA [] ⟨none⟩
    (by decide) (by decide) rfl rfl

/-- Claim C2 counterexample: a pair whose latest deployment failed and
whose remaining history contains a `Success` record (`recS`), but whose
`Success` record has an Absent release: subscripting `success_release` with `Version`
raises, the pair-boundary handler swallows the exception, and no report
at all is produced — the last-successful fields are not populated from
`recS` as the claim requires. -/
theorem last_success_nearest_counterexample :
    fetch_deployments_with_pagination apiScanBad 5 "P" "E" = .ok [recF, recS] ∧
    apiScanBad.task recF.TaskId = .ok (some ⟨some "Failed"⟩) ∧
    apiScanBad.task recS.TaskId = .ok (some ⟨some "Success"⟩) ∧
    apiScanBad.release recS.ReleaseId = .ok none ∧
    process_deployment apiScanBad 5 "P" "E" = none := by
  decide

/-- Claim C2 as amended: when the latest deployment failed, the resolver
scans the remaining records in order; provided the scanned task fetches
complete (Absent allowed) and the release fetch of the first `Success`
record returns a body, the last-successful fields are populated from exactly
that first `Success` record; if no record of the remainder resolves to
`Success`, the fields are left unset and a report is still produced. -/
theorem last_success_nearest :
    (∀ (api : Api) (fuel : Nat) (p e : String) (latest : DeploymentRecord)
        (pre post : List DeploymentRecord) (d : DeploymentRecord)
        (r0 : Release) (t0 td : TaskT) (rd : Release),
        fetch_deployments_with_pagination api fuel p e = .ok (latest :: (pre ++ d :: post)) →
        api.release latest.ReleaseId = .ok (some r0) →
        api.task latest.TaskId = .ok (some t0) →
        t0.State.getD "Unknown" = "Failed" →
        (∀ d' ∈ pre, taskNotSuccess api d') →
        api.task d.TaskId = .ok (some td) →
        td.State.getD "Unknown" = "Success" →
        api.release d.ReleaseId = .ok (some rd) →
        ∃ out, process_deployment api fuel p e = some (e, out) ∧
          out.failed = true ∧
          out.last_successful_version = some rd.Version ∧
          out.last_successful_date = some (convert_to_pdt d.Created)) ∧
    (∀ (api : Api) (fuel : Nat) (p e : String) (latest : DeploymentRecord)
        (rest : List DeploymentRecord) (r0 : Release) (t0 : TaskT),
        fetch_deployments_with_pagination api fuel p e = .ok (latest :: rest) →
        api.release latest.ReleaseId = .ok (some r0) →
        api.task latest.TaskId = .ok (some t0) →
        t0.State.getD "Unknown" = "Failed" →
        (∀ d' ∈ rest, taskNotSuccess api d') →
        ∃ out, process_deployment api fuel p e = some (e, out) ∧
          out.failed = true ∧
          out.last_successful_version = none ∧
          out.last_successful_date = none) := by
  constructor
  · intro api fuel p e latest pre post d r0 t0 td rd hfetch hrel0 htask0 hst0 hpre htaskd hsd hreld
    have hscan : scan_last_success api (pre ++ d :: post) =
        .ok (some (rd.Version, convert_to_pdt d.Created)) := by
      rw [scan_drop_front api pre (d :: post) hpre]
      exact scan_found api d post td rd htaskd hsd hreld
    exact ⟨_, process_forward_failed api fuel p e latest (pre ++ d :: post) r0 t0
      (some (rd.Version, convert_to_pdt d.Created)) hfetch hrel0 htask0 hst0 hscan,
      rfl, rfl, rfl⟩
  · intro api fuel p e latest rest r0 t0 hfetch hrel0 htask0 hst0 hrest
    exact ⟨_, process_forward_failed api fuel p e latest rest r0 t0 none hfetch hrel0 htask0 hst0
      (scan_none api rest hrest), rfl, rfl, rfl⟩

theorem last_success_nearest_witness :
    ∃ out, process_deployment apiScan 5 "P" "E" = some ("E", out) ∧
      out.failed = true ∧
      out.last_successful_version = some relB.Version ∧
      out.last_successful_date = some (convert_to_pdt recS.Created) :=
  last_success_nearest.1 apiScan 5 "P" "E" recF [] [] recS relA ⟨some "Failed"⟩
    ⟨some "Success"⟩ relB (by decide) (by decide) (by decide) (by decide)
    (by simp) (by decide) (by decide) (by decide)

/-- Claim C5 counterexample: on a transport failure `make_api_request`
does not return Absent — the exception of `requests.get` propagates to
the caller (there is no handler in `make_api_request`). -/
theorem api_client_never_raises_counterexample :
    make_api_request transportFail "projects/all" = .error () ∧
    make_api_request transportFail "projects/all" ≠ .ok none := by
  decide

/-- Claim C5 as amended: `make_api_request` returns Absent on every
non-2xx (indeed every non-200) response status without raising; on a
transport failure the exception propagates to the caller. -/
theorem api_client_status_handling :
    ∀ (α : Type) (transport : String → HttpOutcome α) (endpoint : String),
      (∀ (status : Nat) (body : α), transport endpoint = .response status body →
        ¬ (200 ≤ status ∧ status < 300) →
        make_api_request transport endpoint = .ok none) ∧
      (transport endpoint = .netFail →
        make_api_request transport endpoint = .error ()) := by
  intro α transport endpoint
  constructor
  · intro status body htr hst
    have h200 : ¬ status = 200 := by omega
    simp [make_api_request, htr, h200]
  · intro htr
    simp [make_api_request, htr]

theorem api_client_status_handling_witness :
    make_api_request transport404 "projects/all" = .ok none ∧
    make_api_request transportFail "environments/all" = .error () :=
  ⟨(api_client_status_handling Page transport404 "projects/all").1 404 ⟨[]⟩ rfl (by omega),
    (api_client_status_handling Page transportFail "environments/all").2 rfl⟩

/-- Claim C9 counterexample: on `2024-01-01T00:00:00.000000+00:00` the
zone designation of `America/Los_Angeles` is `PST` (standard time), but
`convert_to_pdt` renders the hardcoded literal `PDT`, so its output is
not the designation-carrying rendering the claim requires. -/
theorem convert_to_pdt_designation_counterexample :
    convert_to_pdt ts2024 = "2023-12-31 16:00:00 PDT" ∧
    convert_to_pdt_spec ts2024 = "2023-12-31 16:00:00 PST" ∧
    convert_to_pdt ts2024 ≠ convert_to_pdt_spec ts2024 := by
  decide

/-- Claim C9 as amended: on the UTC timestamp
`2024-01-01T00:00:00.000000+00:00` the converter returns the correct
UTC-8 (standard time) wall-clock rendering `2023-12-31 16:00:00`, but
suffixed with the hardcoded literal `PDT` regardless of the fact that
the actual designation of the date is `PST`. -/
theorem convert_to_pdt_hardcoded_label :
    convert_to_pdt ts2024 = "2023-12-31 16:00:00 PDT" := by
  decide

theorem fetchAux_pages (api : Api) (p e : String) :
    ∀ (k : Nat) (f : Nat → List DeploymentRecord) (tail : List DeploymentRecord)
      (s fuel : Nat), k + 1 ≤ fuel →
      (∀ j, j < k →
        api.deploymentsPage p e (s + j * 30) 30 = .ok (some ⟨f j⟩) ∧ (f j).length = 30) →
      ((api.deploymentsPage p e (s + k * 30) 30 = .ok none ∧ tail = []) ∨
        (api.deploymentsPage p e (s + k * 30) 30 = .ok (some ⟨tail⟩) ∧ tail.length < 30)) →
      fetchDeploymentsAux api p e 30 s fuel = .ok (pagesJoin f k ++ tail, k + 1) := by
  intro k
  induction k with
  | zero =>
    intro f tail s fuel hfuel hfull hstop
    obtain ⟨fuel', rfl⟩ : ∃ fuel', fuel = fuel' + 1 := by
      cases fuel with
      | zero => omega
      | succ n => exact ⟨n, rfl⟩
    simp only [Nat.zero_mul, Nat.add_zero] at hstop
    rcases hstop with ⟨hnone, rfl⟩ | ⟨hsome, hlen⟩
    · simp [fetchDeploymentsAux, hnone, pagesJoin]
    · by_cases hnil : tail = []
      · subst hnil
        simp [fetchDeploymentsAux, hsome, pagesJoin]
      · simp [fetchDeploymentsAux, hsome, pagesJoin, hnil, hlen]
  | succ k ih =>
    intro f tail s fuel hfuel hfull hstop
    obtain ⟨fuel', rfl⟩ : ∃ fuel', fuel = fuel' + 1 := by
      cases fuel with
      | zero => omega
      | succ n => exact ⟨n, rfl⟩
    obtain ⟨h0, h0len⟩ := hfull 0 (Nat.succ_pos k)
    rw [Nat.zero_mul, Nat.add_zero] at h0
    have h0ne : ¬ f 0 = [] := by
      intro hc
      rw [hc] at h0len
      simp at h0len
    have h0nlt : ¬ (f 0).length < 30 := by omega
    have hrec : fetchDeploymentsAux api p e 30 (s + 30) fuel' =
        .ok (pagesJoin (fun j => f (j + 1)) k ++ tail, k + 1) := by
      refine ih (fun j => f (j + 1)) tail (s + 30) fuel' (by omega) ?_ ?_
      · intro j hj
        have := hfull (j + 1) (by omega)
        have harith : s + (j + 1) * 30 = s + 30 + j * 30 := by ring
        rw [harith] at this
        exact this
      · have harith : s + (k + 1) * 30 = s + 30 + k * 30 := by ring
        rw [harith] at hstop
        exact hstop
    calc fetchDeploymentsAux api p e 30 s (fuel' + 1)
        = .ok (f 0 ++ (pagesJoin (fun j => f (j + 1)) k ++ tail), (k + 1) + 1) := by
          simp [fetchDeploymentsAux, h0, h0ne, h0nlt, hrec]
      _ = .ok (pagesJoin f (k + 1) ++ tail, k + 1 + 1) := by
          simp [pagesJoin, List.append_assoc]

/-- Claim C4: the Paginator returns the in-order concatenation of the
fetched pages and stops at the first page that is Absent, empty, or
shorter than the page size 30, with one page call per fetched page (k
full pages and one stopping page give k+1 calls), returning the
accumulated records rather than an error; in particular pages of sizes
[30, 30, 17] give 3 calls and 77 records, and pages of sizes
[30, 30, 30, 0] give 4 calls. -/
theorem paginator_concat_and_counts :
    (∀ (api : Api) (p e : String) (k : Nat) (f : Nat → List DeploymentRecord)
        (tail : List DeploymentRecord) (fuel : Nat), k + 1 ≤ fuel →
      (∀ j, j < k →
        api.deploymentsPage p e (j * 30) 30 = .ok (some ⟨f j⟩) ∧ (f j).length = 30) →
      ((api.deploymentsPage p e (k * 30) 30 = .ok none ∧ tail = []) ∨
        (api.deploymentsPage p e (k * 30) 30 = .ok (some ⟨tail⟩) ∧ tail.length < 30)) →
      fetchDeploymentsAux api p e 30 0 fuel = .ok (pagesJoin f k ++ tail, k + 1) ∧
        fetch_deployments_with_pagination api fuel p e = .ok (pagesJoin f k ++ tail)) ∧
    (fetchDeploymentsAux apiPagesA "P" "E" 30 0 10 = .ok (List.replicate 77 rec0, 3) ∧
      (List.replicate 77 rec0).length = 77) ∧
    fetchDeploymentsAux apiPagesB "P" "E" 30 0 10 = .ok (List.replicate 90 rec0, 4) := by
  refine ⟨?_, ⟨by decide, by decide⟩, by decide⟩
  intro api p e k f tail fuel hfuel hfull hstop
  have haux := fetchAux_pages api p e k f tail 0 fuel hfuel
    (by intro j hj; rw [Nat.zero_add]; exact hfull j hj)
    (by rw [Nat.zero_add]; exact hstop)
  refine ⟨haux, ?_⟩
  simp [fetch_deployments_with_pagination, haux]

theorem paginator_concat_and_counts_witness :
    fetchDeploymentsAux apiPagesA "P" "E" 30 0 10 =
      .ok (pagesJoin (fun _ => List.replicate 30 rec0) 2 ++ List.replicate 17 rec0, 3) :=
  ((paginator_concat_and_counts.1 apiPagesA "P" "E" 2 (fun _ => List.replicate 30 rec0)
    (List.replicate 17 rec0) 10 (by omega) (by decide) (Or.inr (by decide)))).1

theorem group_projects_by_foldl (k : String) :
    ∀ (ps : List ProjectT) (m : String → List ProjectT),
      (ps.foldl
        (fun m project k => if project.ProjectGroupId == k then m k ++ [project] else m k)
        m) k = m k ++ ps.filter (fun p => p.ProjectGroupId == k) := by
  intro ps
  induction ps with
  | nil => intro m; simp
  | cons p rest ih =>
    intro m
    rw [List.foldl_cons, ih]
    by_cases hk : p.ProjectGroupId == k
    · simp [List.filter_cons, hk]
    · simp only [List.filter_cons]
      rw [if_neg hk]  -- placeholder adjusted on compile
      simp [hk]

theorem group_projects_by_eq_filter (projects : List ProjectT) (k : String) :
    group_projects_by projects k = projects.filter (fun p => p.ProjectGroupId == k) := by
  rw [group_projects_by, group_projects_by_foldl]
  simp

theorem process_key (api : Api) (fuel : Nat) (p e k : String) (v : EnvOutput)
    (h : process_deployment api fuel p e = some (k, v)) : k = e :=
  (process_some_inv api fuel p e k v h).1

theorem build_project_data_ok (api : Api) (fuel : Nat) (envs : List EnvT)
    (project : ProjectT) (hdet : ∃ d, api.projectDetails project.Id = .ok d) :
    build_project_data api fuel envs project = .ok (build_pure api fuel envs project) := by
  obtain ⟨d, hd⟩ := hdet
  cases d with
  | none => simp [build_project_data, fetch_project_details, build_pure, hd]
  | some dd => simp [build_project_data, fetch_project_details, build_pure, hd]

theorem build_group_projects_ok (api : Api) (fuel : Nat) (envs : List EnvT)
    (hdet : ∀ s, ∃ d, api.projectDetails s = .ok d) :
    ∀ ps : List ProjectT,
      build_group_projects api fuel envs ps = .ok (ps.map (build_pure api fuel envs)) := by
  intro ps
  induction ps with
  | nil => rfl
  | cons p rest ih =>
    simp [build_group_projects, build_project_data_ok api fuel envs p (hdet p.Id), ih]

theorem build_groups_ok (api : Api) (fuel : Nat) (pbg : String → List ProjectT)
    (envs : List EnvT) (hdet : ∀ s, ∃ d, api.projectDetails s = .ok d) :
    ∀ gs : List GroupT,
      build_groups api fuel pbg envs gs = .ok (gs.map (fun g =>
        { id := g.Id, name := g.Name,
          projects := (pbg g.Id).map (build_pure api fuel envs) })) := by
  intro gs
  induction gs with
  | nil => rfl
  | cons g rest ih =>
    simp [build_groups, build_group_projects_ok api fuel envs hdet, ih]

theorem fetch_all_spec (api : Api) (fuel : Nat) (projects : List ProjectT)
    (project_groups : List GroupT) (environments : List EnvT)
    (hp : api.projectsAll = .ok (some projects))
    (hg : api.projectGroupsAll = .ok (some project_groups))
    (he : api.environmentsAll = .ok (some environments))
    (hdet : ∀ s, ∃ d, api.projectDetails s = .ok d) :
    fetch_all_deployment_data api fuel = .ok (project_groups.map (fun g =>
      { id := g.Id, name := g.Name,
        projects := (projects.filter (fun p => p.ProjectGroupId == g.Id)).map
          (build_pure api fuel environments) })) := by
  have : fetch_all_deployment_data api fuel =
      build_groups api fuel (group_projects_by projects) environments project_groups := by
    simp [fetch_all_deployment_data, fetch_all_projects, fetch_all_project_groups,
      fetch_all_environments, hp, hg, he]
  rw [this, build_groups_ok api fuel (group_projects_by projects) environments hdet]
  refine congrArg Except.ok (List.map_congr_left ?_)
  intro g hg2
  rw [group_projects_by_eq_filter]

/-- Claim C8: the Final Report contains one GroupReport per fetched
project group, in group enumeration order, each holding exactly the
projects whose `ProjectGroupId` equals the `Id` of that group, in the
insertion order of the source project list; consequently a project whose
group identifier matches no fetched group record appears nowhere in the
report. -/
theorem aggregator_grouping :
    ∀ (api : Api) (fuel : Nat) (projects : List ProjectT) (project_groups : List GroupT)
      (environments : List EnvT),
      api.projectsAll = .ok (some projects) →
      api.projectGroupsAll = .ok (some project_groups) →
      api.environmentsAll = .ok (some environments) →
      (∀ s, ∃ d, api.projectDetails s = .ok d) →
      ∃ report, fetch_all_deployment_data api fuel = .ok report ∧
        report = project_groups.map (fun g =>
          { id := g.Id, name := g.Name,
            projects := (projects.filter (fun p => p.ProjectGroupId == g.Id)).map
              (build_pure api fuel environments) }) ∧
        ((projects.map ProjectT.Id).Nodup →
          ∀ p ∈ projects, (∀ g ∈ project_groups, ¬ g.Id = p.ProjectGroupId) →
          ∀ gd ∈ report, ∀ pd ∈ gd.projects, ¬ pd.id = p.Id) := by
  intro api fuel projects project_groups environments hp hg he hdet
  refine ⟨_, fetch_all_spec api fuel projects project_groups environments hp hg he hdet,
    rfl, ?_⟩
  intro hnodup p hpmem hnog gd hgd pd hpd hpid
  obtain ⟨g, hgmem, rfl⟩ := List.mem_map.mp hgd
  obtain ⟨q, hqmem, rfl⟩ := List.mem_map.mp hpd
  have hq : q ∈ projects ∧ (q.ProjectGroupId == g.Id) = true := List.mem_filter.mp hqmem
  have hqid : q.Id = p.Id := hpid
  have : q = p := List.inj_on_of_nodup_map hnodup hq.1 hpmem hqid
  subst this
  exact hnog g hgmem (Eq.symm (by simpa using hq.2))

theorem aggregator_grouping_witness :
    ∃ report, fetch_all_deployment_data apiW 5 = .ok report ∧
      report = [groupW].map (fun g =>
        { id := g.Id, name := g.Name,
          projects := ([projW].filter (fun p => p.ProjectGroupId == g.Id)).map
            (build_pure apiW 5 [envW1, envW2]) }) ∧
      (([projW].map ProjectT.Id).Nodup →
        ∀ p ∈ [projW], (∀ g ∈ [groupW], ¬ g.Id = p.ProjectGroupId) →
        ∀ gd ∈ report, ∀ pd ∈ gd.projects, ¬ pd.id = p.Id) :=
  aggregator_grouping apiW 5 [projW] [groupW] [envW1, envW2] rfl rfl rfl
    (fun _ => ⟨none, rfl⟩)

theorem insertDict_fresh (m : List (String × EnvOutput)) (k : String) (v : EnvOutput)
    (h : ∀ kv ∈ m, ¬ kv.1 = k) : insertDict m k v = m ++ [(k, v)] := by
  have hfind : m.find? (fun kv => kv.1 == k) = none := by
    rw [List.find?_eq_none]
    intro kv hkv
    simp [h kv hkv]
  simp [insertDict, hfind]

theorem collect_aux_congr (api apiF : Api) (fuel : Nat) (pid : String) :
    ∀ (envs : List EnvT) (acc : List (String × EnvOutput)),
      (∀ env ∈ envs,
        process_deployment api fuel pid env.Id = process_deployment apiF fuel pid env.Id) →
      collect_env_data_aux api fuel pid acc envs = collect_env_data_aux apiF fuel pid acc envs := by
  intro envs
  induction envs with
  | nil => intro acc h; rfl
  | cons env rest ih =>
    intro acc h
    have he := h env (List.mem_cons_self env rest)
    have hrest := fun e he' => h e (List.mem_cons_of_mem env he')
    simp only [collect_env_data_aux, ← he]
    cases hp : process_deployment api fuel pid env.Id with
    | none => exact ih acc hrest
    | some kv => exact ih _ hrest

theorem collect_aux_inject (api apiF : Api) (fuel : Nat) (p0 e0 : String)
    (hfail : process_deployment apiF fuel p0 e0 = none) :
    ∀ (envs : List EnvT) (acc : List (String × EnvOutput)),
      (envs.map EnvT.Id).Nodup →
      (∀ kv ∈ acc, ∀ env ∈ envs, ¬ kv.1 = env.Id) →
      (∀ env ∈ envs, ¬ env.Id = e0 →
        process_deployment api fuel p0 env.Id = process_deployment apiF fuel p0 env.Id) →
      collect_env_data_aux apiF fuel p0 (acc.filter (fun kv => !(kv.1 == e0))) envs =
        (collect_env_data_aux api fuel p0 acc envs).filter (fun kv => !(kv.1 == e0)) := by
  intro envs
  induction envs with
  | nil => intro acc _ _ _; rfl
  | cons env rest ih =>
    intro acc hnodup hfresh hagree
    have hnodup2 : env.Id ∉ rest.map EnvT.Id ∧ (rest.map EnvT.Id).Nodup := by
      rw [List.map_cons] at hnodup
      exact List.nodup_cons.mp hnodup
    have hfreshrest : ∀ kv ∈ acc, ∀ e' ∈ rest, ¬ kv.1 = e'.Id :=
      fun kv hkv e' he' => hfresh kv hkv e' (List.mem_cons_of_mem env he')
    have hagreerest : ∀ env' ∈ rest, ¬ env'.Id = e0 →
        process_deployment api fuel p0 env'.Id = process_deployment apiF fuel p0 env'.Id :=
      fun e' he' => hagree e' (List.mem_cons_of_mem env he')
    have hfreshnew : ∀ (v : EnvOutput), ∀ kv ∈ acc ++ [(env.Id, v)], ∀ e' ∈ rest, ¬ kv.1 = e'.Id := by
      intro v kv hkv e' he' hkc
      rcases List.mem_append.mp hkv with hkv | hkv
      · exact hfreshrest kv hkv e' he' hkc
      · have hkve : kv = (env.Id, v) := by simpa using hkv
        have hid : env.Id = e'.Id := by
          rw [hkve] at hkc
          simpa using hkc
        apply hnodup2.1
        rw [hid]
        exact List.mem_map_of_mem EnvT.Id he'
    by_cases heid : env.Id = e0
    · have hFnone : process_deployment apiF fuel p0 env.Id = none := by
        rw [heid]; exact hfail
      cases hp : process_deployment api fuel p0 env.Id with
      | none =>
        simp only [collect_env_data_aux, hFnone, hp]
        exact ih acc hnodup2.2 hfreshrest hagreerest
      | some kv =>
        obtain ⟨k, v⟩ := kv
        obtain rfl : k = env.Id := process_key api fuel p0 env.Id k v hp
        simp only [collect_env_data_aux, hFnone, hp]
        have hins : insertDict acc env.Id { v with name := some env.Name } =
            acc ++ [(env.Id, { v with name := some env.Name })] :=
          insertDict_fresh acc env.Id _ (fun kv hkv => hfresh kv hkv env (List.mem_cons_self env rest))
        rw [hins]
        have hfiltereq : (acc ++ [(env.Id, { v with name := some env.Name })]).filter
            (fun kv => !(kv.1 == e0)) = acc.filter (fun kv => !(kv.1 == e0)) := by
          rw [List.filter_append]
          simp [heid]
        have := ih (acc ++ [(env.Id, { v with name := some env.Name })]) hnodup2.2
          (hfreshnew _) hagreerest
        rw [hfiltereq] at this
        exact this
    · have he := hagree env (List.mem_cons_self env rest) heid
      cases hp : process_deployment api fuel p0 env.Id with
      | none =>
        have hpF : process_deployment apiF fuel p0 env.Id = none := by rw [← he]; exact hp
        simp only [collect_env_data_aux, hp, hpF]
        exact ih acc hnodup2.2 hfreshrest hagreerest
      | some kv =>
        obtain ⟨k, v⟩ := kv
        obtain rfl : k = env.Id := process_key api fuel p0 env.Id k v hp
        have hpF : process_deployment apiF fuel p0 env.Id = some (env.Id, v) := by
          rw [← he]; exact hp
        simp only [collect_env_data_aux, hp, hpF]
        have hins : insertDict acc env.Id { v with name := some env.Name } =
            acc ++ [(env.Id, { v with name := some env.Name })] :=
          insertDict_fresh acc env.Id _ (fun kv hkv => hfresh kv hkv env (List.mem_cons_self env rest))
        have hins2 : insertDict (acc.filter (fun kv => !(kv.1 == e0))) env.Id
            { v with name := some env.Name } =
            acc.filter (fun kv => !(kv.1 == e0)) ++ [(env.Id, { v with name := some env.Name })] :=
          insertDict_fresh _ env.Id _ (fun kv hkv =>
            hfresh kv (List.mem_of_mem_filter hkv) env (List.mem_cons_self env rest))
        rw [hins, hins2]
        have hfiltereq : acc.filter (fun kv => !(kv.1 == e0)) ++
            [(env.Id, { v with name := some env.Name })] =
            (acc ++ [(env.Id, { v with name := some env.Name })]).filter
              (fun kv => !(kv.1 == e0)) := by
          rw [List.filter_append]
          simp [heid]
        rw [hfiltereq]
        exact ih (acc ++ [(env.Id, { v with name := some env.Name })]) hnodup2.2
          (hfreshnew _) hagreerest

theorem collect_inject (api apiF : Api) (fuel : Nat) (p0 e0 : String) (envs : List EnvT)
    (hnodup : (envs.map EnvT.Id).Nodup)
    (hagree : ∀ env ∈ envs, ¬ env.Id = e0 →
      process_deployment api fuel p0 env.Id = process_deployment apiF fuel p0 env.Id)
    (hfail : process_deployment apiF fuel p0 e0 = none) :
    collect_env_data apiF fuel p0 envs =
      (collect_env_data api fuel p0 envs).filter (fun kv => !(kv.1 == e0)) := by
  have := collect_aux_inject api apiF fuel p0 e0 hfail envs [] hnodup (by simp) hagree
  simpa [collect_env_data] using this

/-- Claim C7: partial failure containment — when resolution of exactly
one (project, environment) pair is made to fail (yielding no result),
while every other pair resolves as before, the aggregate report is the
same except that the entry of the failed pair is removed from the
environment collection of its project; the report of every other pair
is unchanged and present, and no group or project is dropped. -/
theorem aggregator_failure_containment :
    ∀ (api apiF : Api) (fuel : Nat) (projects : List ProjectT)
      (project_groups : List GroupT) (environments : List EnvT) (p0 e0 : String),
      api.projectsAll = .ok (some projects) →
      apiF.projectsAll = .ok (some projects) →
      api.projectGroupsAll = .ok (some project_groups) →
      apiF.projectGroupsAll = .ok (some project_groups) →
      api.environmentsAll = .ok (some environments) →
      apiF.environmentsAll = .ok (some environments) →
      (∀ s, apiF.projectDetails s = api.projectDetails s) →
      (∀ s, ∃ d, api.projectDetails s = .ok d) →
      (environments.map EnvT.Id).Nodup →
      (∀ p ∈ projects, ∀ env ∈ environments, ¬ (p.Id = p0 ∧ env.Id = e0) →
        process_deployment api fuel p.Id env.Id = process_deployment apiF fuel p.Id env.Id) →
      process_deployment apiF fuel p0 e0 = none →
      ∃ report, fetch_all_deployment_data api fuel = .ok report ∧
        fetch_all_deployment_data apiF fuel = .ok (report.map (fun gd =>
          { gd with projects := gd.projects.map (fun pd =>
              if pd.id == p0 then
                { pd with environments :=
                    ((collect_env_data api fuel p0 environments).filter
                      (fun kv => !(kv.1 == e0))).map (fun kv => kv.2) }
              else pd) })) := by
  intro api apiF fuel projects project_groups environments p0 e0 hp hpF hg hgF he heF
    hdeteq hdet hnodup hagree hfail
  have hdetF : ∀ s, ∃ d, apiF.projectDetails s = .ok d := by
    intro s
    obtain ⟨d, hd⟩ := hdet s
    exact ⟨d, by rw [hdeteq s]; exact hd⟩
  refine ⟨_, fetch_all_spec api fuel projects project_groups environments hp hg he hdet, ?_⟩
  rw [fetch_all_spec apiF fuel projects project_groups environments hpF hgF heF hdetF]
  refine congrArg Except.ok ?_
  rw [List.map_map]
  refine List.map_congr_left ?_
  intro g hgmem
  simp only [Function.comp_apply]
  refine congrArg (GroupData.mk g.Id g.Name) ?_
  rw [List.map_map]
  refine List.map_congr_left ?_
  intro pr hprmem2
  have hprmem : pr ∈ projects := (List.mem_filter.mp hprmem2).1
  simp only [Function.comp_apply]
  by_cases hid : pr.Id = p0
  · have hb : ((build_pure api fuel environments pr).id == p0) = true := by
      simp [build_pure, hid]
    rw [if_pos (by simpa using hb)]
    have hagreeP0 : ∀ env ∈ environments, ¬ env.Id = e0 →
        process_deployment api fuel p0 env.Id = process_deployment apiF fuel p0 env.Id := by
      intro env henv hne
      have := hagree pr hprmem env henv (fun hcon => hne hcon.2)
      rwa [hid] at this
    have hcoll := collect_inject api apiF fuel p0 e0 environments hnodup hagreeP0 hfail
    simp only [build_pure]
    simp only [ProjectData.mk.injEq]
    refine ⟨trivial, trivial, by rw [hdeteq pr.Id], ?_⟩
    rw [hid, hcoll]
  · have hb : ((build_pure api fuel environments pr).id == p0) = false := by
      simp [build_pure, hid]
    rw [if_neg (by simp [hb])]
    have hcoll : collect_env_data api fuel pr.Id environments =
        collect_env_data apiF fuel pr.Id environments :=
      collect_aux_congr api apiF fuel pr.Id environments []
        (fun env henv => hagree pr hprmem env henv (fun hcon => hid hcon.1))
    simp only [build_pure]
    simp only [ProjectData.mk.injEq]
    exact ⟨trivial, trivial, by rw [hdeteq pr.Id], by rw [hcoll]⟩

theorem aggregator_failure_containment_witness :
    ∃ report, fetch_all_deployment_data apiW 5 = .ok report ∧
      fetch_all_deployment_data apiWfail 5 = .ok (report.map (fun gd =>
        { gd with projects := gd.projects.map (fun pd =>
            if pd.id == "P1" then
              { pd with environments :=
                  ((collect_env_data apiW 5 "P1" [envW1, envW2]).filter
                    (fun kv => !(kv.1 == "E1"))).map (fun kv => kv.2) }
            else pd) })) :=
  aggregator_failure_containment apiW apiWfail 5 [projW] [groupW]
    [envW1, envW2] "P1" "E1" rfl rfl rfl rfl rfl rfl (fun _ => rfl)
    (fun _ => ⟨none, rfl⟩) (by decide) (by decide) (by decide)
